import Mathlib

/-!
Verification of the Saito node core (saito-rust-workspace) against its
natural-language specification.  The Rust sources under
`saito-core/src/core` are shallowly embedded as executable Lean
definitions: machine integers become `Nat` (the relevant arithmetic never
overflows a `u64`/`u128` in the properties below, and big-endian 256-bit
comparisons are modelled as `Nat` comparisons exactly as `U256`
implements them), byte arrays become `List Nat`, stateful methods become
state-passing functions, and code that panics returns `Except`.
-/

namespace Saito

/-! ## Golden ticket (`core/data/golden_ticket.rs`) -/

/-- Hex nibble `i` (0-based, big-endian) of the target string that
`GoldenTicket::is_valid_solution` builds: `'0'` below
`leading_zeroes_required = difficulty / 16`, the digit
`15 - difficulty % 16` at that index, and `'F'` afterwards. -/
def targetNibble (difficulty i : Nat) : Nat :=
  if i < difficulty / 16 then 0
  else if i = difficulty / 16 then 15 - difficulty % 16
  else 15

/-- Numeric value of the 64-nibble big-endian target string produced for
`difficulty` (the value `U256::from_big_endian(&target_hash)` sees). -/
def targetValue (difficulty : Nat) : Nat :=
  (List.range 64).foldl (fun acc i => 16 * acc + targetNibble difficulty i) 0

/-- Big-endian interpretation of a byte string, as
`U256::from_big_endian` computes it for a 32-byte input. -/
def uintBE (bytes : List Nat) : Nat :=
  bytes.foldl (fun acc b => 256 * acc + b) 0

/-- Embedding of `GoldenTicket::is_valid_solution`: the solution is valid
iff its big-endian value is at most the target value derived from the
difficulty. -/
def is_valid_solution (solution : List Nat) (difficulty : Nat) : Bool :=
  decide (uintBE solution ≤ targetValue difficulty)

/-- Embedding of the `GoldenTicket` struct: `target` and `random` are
32-byte hashes, `publickey` is a 33-byte compressed key. -/
structure GoldenTicket where
  target : List Nat
  random : List Nat
  publickey : List Nat
deriving DecidableEq, Repr

/-- Embedding of `GoldenTicket::serialize_for_transaction`:
`target ‖ random ‖ publickey`. -/
def GoldenTicket.serialize_for_transaction (g : GoldenTicket) : List Nat :=
  g.target ++ g.random ++ g.publickey

/-- Embedding of `GoldenTicket::deserialize_for_transaction`: slices
`bytes[0..32]`, `bytes[32..64]`, `bytes[64..97]`. -/
def GoldenTicket.deserialize_for_transaction (bytes : List Nat) : GoldenTicket :=
  { target := bytes.take 32
    random := (bytes.drop 32).take 32
    publickey := ((bytes.drop 64).take 33) }

/-! Pointwise antitonicity of the target nibbles, and hence of the
target value, in the difficulty. -/

lemma targetNibble_succ_le (d i : Nat) :
    targetNibble (d + 1) i ≤ targetNibble d i := by
  unfold targetNibble
  rcases Nat.lt_or_ge (d % 16) 15 with hr | hr
  · have hdiv : (d + 1) / 16 = d / 16 := by omega
    have hmod : (d + 1) % 16 = d % 16 + 1 := by omega
    rw [hdiv, hmod]
    repeat' split
    all_goals omega
  · have hr' : d % 16 = 15 := by omega
    have hdiv : (d + 1) / 16 = d / 16 + 1 := by omega
    have hmod : (d + 1) % 16 = 0 := by omega
    rw [hdiv, hmod, hr']
    repeat' split
    all_goals omega

lemma foldl_nibble_mono (f g : Nat → Nat) (l : List Nat) (a b : Nat)
    (hab : a ≤ b) (h : ∀ i ∈ l, f i ≤ g i) :
    l.foldl (fun acc i => 16 * acc + f i) a ≤
      l.foldl (fun acc i => 16 * acc + g i) b := by
  induction l generalizing a b with
  | nil => simpa using hab
  | cons x xs ih =>
    simp only [List.foldl_cons]
    refine ih _ _ ?_ fun i hi => h i (List.mem_cons_of_mem _ hi)
    have := h x (List.mem_cons_self x xs)
    omega

lemma targetValue_succ_le (d : Nat) : targetValue (d + 1) ≤ targetValue d :=
  foldl_nibble_mono _ _ _ _ _ (Nat.le_refl 0)
    (fun i _ => targetNibble_succ_le d i)

lemma targetValue_antitone {d' d : Nat} (h : d' ≤ d) :
    targetValue d ≤ targetValue d' := by
  induction d with
  | zero => simp [Nat.le_zero.mp h]
  | succ n ih =>
    rcases Nat.lt_or_ge d' (n + 1) with h' | h'
    · exact (targetValue_succ_le n).trans (ih (by omega))
    · have : d' = n + 1 := by omega
      simp [this]

lemma uintBE_foldl_lt (l : List Nat) (acc : Nat) (h : ∀ b ∈ l, b < 256) :
    l.foldl (fun a b => 256 * a + b) acc < 256 ^ l.length * (acc + 1) := by
  induction l generalizing acc with
  | nil => simp
  | cons x xs ih =>
    simp only [List.foldl_cons, List.length_cons]
    have hx : x < 256 := h x (List.mem_cons_self x xs)
    have hrec := ih (256 * acc + x) fun b hb => h b (List.mem_cons_of_mem _ hb)
    calc xs.foldl (fun a b => 256 * a + b) (256 * acc + x)
        < 256 ^ xs.length * (256 * acc + x + 1) := hrec
      _ ≤ 256 ^ xs.length * (256 * (acc + 1)) := by
          exact Nat.mul_le_mul_left _ (by omega)
      _ = 256 ^ (xs.length + 1) * (acc + 1) := by ring

lemma targetValue_zero : targetValue 0 = 2 ^ 256 - 1 := by decide

/-! ## Wallet data model

The `Slip`, `Transaction` and `Block` types live in
`core/data/slip.rs`, `transaction.rs` and `block.rs`, which are not part
of the sources at hand; only the fields the wallet code reads are
modelled, following the specification's data model. -/

/-- Modelled from the spec: `slip_type ∈ {Normal, StakerDeposit,
StakerOutput, StakerWithdrawalStaking, StakerWithdrawalPending,
VipOutput, Other}`. -/
inductive SlipType where
  | Normal
  | StakerDeposit
  | StakerOutput
  | StakerWithdrawalStaking
  | StakerWithdrawalPending
  | VipOutput
  | Other
deriving DecidableEq, Repr

/-- Modelled from the spec: a `Slip` carries `publickey`, `amount`,
`uuid`, `slip_ordinal` and `slip_type` (the fields the wallet reads). -/
structure Slip where
  publickey : List Nat
  amount : Nat
  uuid : List Nat
  slip_ordinal : Nat
  slip_type : SlipType
deriving DecidableEq, Repr

/-- Modelled from the spec: `Slip::new` defaults — zeroed key and uuid,
zero amount and ordinal, `Normal` type. -/
def Slip.new : Slip :=
  { publickey := List.replicate 33 0
    amount := 0
    uuid := List.replicate 32 0
    slip_ordinal := 0
    slip_type := SlipType.Normal }

/-- Modelled from the spec: the `UTXOKey` is a pure function of
publickey, uuid, slip_ordinal and amount. -/
def Slip.get_utxoset_key (s : Slip) : List Nat :=
  s.publickey ++ s.uuid ++ [s.slip_ordinal, s.amount]

/-- Modelled from the spec: a `Transaction` has ordered input and output
slips and a cached signing-hash (the fields the wallet reads). -/
structure Transaction where
  inputs : List Slip
  outputs : List Slip
  hash_for_signature : List Nat
deriving DecidableEq, Repr

/-- Modelled from the spec: a `Block` has an id, a hash and its
transactions (the fields the wallet reads). -/
structure Block where
  id : Nat
  hash : List Nat
  transactions : List Transaction
deriving DecidableEq, Repr

/-- Embedding of `WalletSlip` (`core/data/wallet.rs`). -/
structure WalletSlip where
  uuid : List Nat
  utxokey : List Nat
  amount : Nat
  block_id : Nat
  block_hash : List Nat
  lc : Bool
  slip_ordinal : Nat
  spent : Bool
deriving DecidableEq, Repr

/-- Embedding of `WalletSlip::new`. -/
def WalletSlip.new : WalletSlip :=
  { uuid := List.replicate 32 0
    utxokey := List.replicate 74 0
    amount := 0
    block_id := 0
    block_hash := List.replicate 32 0
    lc := true
    slip_ordinal := 0
    spent := false }

/-- Embedding of the `Wallet` struct (`core/data/wallet.rs`). -/
structure Wallet where
  publickey : List Nat
  privatekey : List Nat
  slips : List WalletSlip
  staked_slips : List WalletSlip
  filename : String
  filepass : String
deriving DecidableEq, Repr

/-- Predicate for `WalletSlip`s matching a `Slip` on (uuid, ordinal) —
the condition negated in the `retain` calls of `Wallet::delete_slip` and
`Wallet::delete_staked_slip`. -/
def matches_slip (x : WalletSlip) (slip : Slip) : Bool :=
  decide (x.uuid = slip.uuid) && decide (x.slip_ordinal = slip.slip_ordinal)

/-- Embedding of `Wallet::delete_slip`: retain the wallet slips whose
uuid or slip ordinal differs. -/
def Wallet.delete_slip (w : Wallet) (slip : Slip) : Wallet :=
  { w with slips := w.slips.filter (fun x => !matches_slip x slip) }

/-- Embedding of `Wallet::delete_staked_slip`. -/
def Wallet.delete_staked_slip (w : Wallet) (slip : Slip) : Wallet :=
  { w with staked_slips := w.staked_slips.filter (fun x => !matches_slip x slip) }

/-- The `WalletSlip` that `Wallet::add_slip` builds: uuid from the
transaction's signing hash, utxokey/amount/ordinal from the slip, block
id and hash from the block, the given `lc` flag, not spent. -/
def mk_wallet_slip (block : Block) (tx : Transaction) (slip : Slip) (lc : Bool) : WalletSlip :=
  { WalletSlip.new with
      uuid := tx.hash_for_signature
      utxokey := slip.get_utxoset_key
      amount := slip.amount
      slip_ordinal := slip.slip_ordinal
      block_id := block.id
      block_hash := block.hash
      lc := lc }

/-- Slip types routed into `staked_slips` by `Wallet::add_slip`. -/
def staked_add_type (t : SlipType) : Bool :=
  match t with
  | SlipType.StakerDeposit => true
  | SlipType.StakerOutput => true
  | _ => false

/-- Embedding of `Wallet::add_slip`: pushes the new `WalletSlip` onto
`staked_slips` for `StakerDeposit`/`StakerOutput` slips, else onto
`slips`. -/
def Wallet.add_slip (w : Wallet) (block : Block) (tx : Transaction) (slip : Slip)
    (lc : Bool) : Wallet :=
  if staked_add_type slip.slip_type then
    { w with staked_slips := w.staked_slips ++ [mk_wallet_slip block tx slip lc] }
  else
    { w with slips := w.slips ++ [mk_wallet_slip block tx slip lc] }

/-- Slip types routed to `delete_staked_slip` by
`Wallet::on_chain_reorganization` (the four staker types). -/
def staked_delete_type (t : SlipType) : Bool :=
  match t with
  | SlipType.StakerDeposit => true
  | SlipType.StakerOutput => true
  | SlipType.StakerWithdrawalStaking => true
  | SlipType.StakerWithdrawalPending => true
  | _ => false

/-- Input loop of the `lc = true` branch of
`Wallet::on_chain_reorganization`: each positive-amount input owned by
the wallet is deleted from the staked or spendable list by slip type. -/
def wallet_reorg_delete_inputs (w : Wallet) : List Slip → Wallet
  | [] => w
  | input :: rest =>
    let w' :=
      if 0 < input.amount ∧ input.publickey = w.publickey then
        if staked_delete_type input.slip_type then w.delete_staked_slip input
        else w.delete_slip input
      else w
    wallet_reorg_delete_inputs w' rest

/-- Output loop of the `lc = true` branch of
`Wallet::on_chain_reorganization`: each positive-amount output owned by
the wallet is added via `add_slip`. -/
def wallet_reorg_add_outputs (block : Block) (tx : Transaction) (w : Wallet) :
    List Slip → Wallet
  | [] => w
  | output :: rest =>
    let w' :=
      if 0 < output.amount ∧ output.publickey = w.publickey then
        w.add_slip block tx output true
      else w
    wallet_reorg_add_outputs block tx w' rest

/-- Input loop of the `lc = false` branch of
`Wallet::on_chain_reorganization`: each positive-amount input owned by
the wallet is re-added via `add_slip`. -/
def wallet_reorg_add_inputs (block : Block) (tx : Transaction) (w : Wallet) :
    List Slip → Wallet
  | [] => w
  | input :: rest =>
    let w' :=
      if 0 < input.amount ∧ input.publickey = w.publickey then
        w.add_slip block tx input true
      else w
    wallet_reorg_add_inputs block tx w' rest

/-- Output loop of the `lc = false` branch of
`Wallet::on_chain_reorganization`: each positive-amount output owned by
the wallet is deleted via `delete_slip`. -/
def wallet_reorg_delete_outputs (w : Wallet) : List Slip → Wallet
  | [] => w
  | output :: rest =>
    let w' :=
      if 0 < output.amount ∧ output.publickey = w.publickey then
        w.delete_slip output
      else w
    wallet_reorg_delete_outputs w' rest

/-- Transaction loop of `Wallet::on_chain_reorganization` for the given
`lc` flag. -/
def wallet_reorg_txs (block : Block) (lc : Bool) (w : Wallet) :
    List Transaction → Wallet
  | [] => w
  | tx :: rest =>
    let w' :=
      if lc then
        wallet_reorg_add_outputs block tx
          (wallet_reorg_delete_inputs w tx.inputs) tx.outputs
      else
        wallet_reorg_delete_outputs
          (wallet_reorg_add_inputs block tx w tx.inputs) tx.outputs
    wallet_reorg_txs block lc w' rest

/-- Embedding of `Wallet::on_chain_reorganization`. -/
def Wallet.on_chain_reorganization (w : Wallet) (block : Block) (lc : Bool) : Wallet :=
  wallet_reorg_txs block lc w block.transactions

/-- Input-selection loop of `Wallet::generate_slips`: walks the wallet
slips in order; an unspent slip is taken while the accumulated
`nolan_in` is still below `nolan_requested`, in which case a fresh input
`Slip` copying its amount, uuid and ordinal is pushed and the wallet
slip is marked spent.  Returns the updated slip list, the input slips
and the final `nolan_in`. -/
def generate_slips_loop (pk : List Nat) (nolan_requested : Nat) :
    List WalletSlip → Nat → List WalletSlip × List Slip × Nat
  | [], nolan_in => ([], [], nolan_in)
  | s :: rest, nolan_in =>
    if ¬s.spent ∧ nolan_in < nolan_requested then
      let input := { Slip.new with
        publickey := pk
        amount := s.amount
        uuid := s.uuid
        slip_ordinal := s.slip_ordinal }
      let r := generate_slips_loop pk nolan_requested rest (nolan_in + s.amount)
      ({ s with spent := true } :: r.1, input :: r.2.1, r.2.2)
    else
      let r := generate_slips_loop pk nolan_requested rest nolan_in
      (s :: r.1, r.2.1, r.2.2)

/-- The zero-amount placeholder slip that `Wallet::generate_slips`
pushes when the inputs or outputs would otherwise be empty. -/
def placeholder_slip (pk : List Nat) : Slip :=
  { Slip.new with publickey := pk, amount := 0, uuid := List.replicate 32 0 }

/-- Embedding of `Wallet::generate_slips`: greedy selection, the single
change output for the overflow, and the ensure-not-empty padding.
Returns the `(inputs, outputs)` pair and the updated wallet. -/
def Wallet.generate_slips (w : Wallet) (nolan_requested : Nat) :
    (List Slip × List Slip) × Wallet :=
  let r := generate_slips_loop w.publickey nolan_requested w.slips 0
  let nolan_in := r.2.2
  let nolan_out := if nolan_in > nolan_requested then nolan_in - nolan_requested else 0
  let outputs : List Slip :=
    [{ Slip.new with publickey := w.publickey, amount := nolan_out }]
  let inputs : List Slip :=
    if r.2.1.isEmpty then [placeholder_slip w.publickey] else r.2.1
  let outputs : List Slip :=
    if outputs.isEmpty then [placeholder_slip w.publickey] else outputs
  ((inputs, outputs), { w with slips := r.1 })

/-! ## Specification-side wallet functions

The following definitions restate what the claims say in the spec's own
words, to be compared against the embedded code. -/

/-- Whether a slip is "owned" by publickey `pk` with a positive amount —
the guard `Wallet::on_chain_reorganization` actually applies. -/
def owned_positive (pk : List Nat) (s : Slip) : Bool :=
  decide (0 < s.amount) && decide (s.publickey = pk)

/-- Whether a slip is "owned" by publickey `pk` regardless of amount —
the guard the claim as literally stated would apply. -/
def owned_claim (pk : List Nat) (s : Slip) : Bool :=
  decide (s.publickey = pk)

/-- Spec-side effect of one transaction on a longest-chain add, with a
tunable ownership guard: the matching inputs are removed from the
spendable or staked list (chosen by slip type) and a new `WalletSlip`
is appended for each matching output (again routed by slip type). -/
def wallet_spec_tx_lc (own : List Nat → Slip → Bool) (block : Block)
    (tx : Transaction) (w : Wallet) : Wallet :=
  let delIn := tx.inputs.filter (own w.publickey)
  let addOut := tx.outputs.filter (own w.publickey)
  { w with
    slips :=
      (w.slips.filter fun ws =>
        !(delIn.any fun s => !staked_delete_type s.slip_type && matches_slip ws s)) ++
      (addOut.filter fun s => !staked_add_type s.slip_type).map
        (fun s => mk_wallet_slip block tx s true)
    staked_slips :=
      (w.staked_slips.filter fun ws =>
        !(delIn.any fun s => staked_delete_type s.slip_type && matches_slip ws s)) ++
      (addOut.filter fun s => staked_add_type s.slip_type).map
        (fun s => mk_wallet_slip block tx s true) }

/-- Spec-side effect of one transaction on a reorg-undo: a `WalletSlip`
is restored for each matching input (routed by slip type), and the slips
matching an output are removed from the spendable list only — the
staked list is not searched on undo, so a staked slip created by a
`StakerDeposit`/`StakerOutput` output survives. -/
def wallet_spec_tx_undo (own : List Nat → Slip → Bool) (block : Block)
    (tx : Transaction) (w : Wallet) : Wallet :=
  let addIn := tx.inputs.filter (own w.publickey)
  let delOut := tx.outputs.filter (own w.publickey)
  { w with
    slips :=
      ((w.slips ++
        (addIn.filter fun s => !staked_add_type s.slip_type).map
          (fun s => mk_wallet_slip block tx s true)).filter fun ws =>
        !(delOut.any fun s => matches_slip ws s))
    staked_slips :=
      w.staked_slips ++
      (addIn.filter fun s => staked_add_type s.slip_type).map
        (fun s => mk_wallet_slip block tx s true) }

/-- Spec-side chain reorganization: every transaction of the block is
walked in order with the per-transaction effect. -/
def wallet_reorg_spec (own : List Nat → Slip → Bool) (w : Wallet) (block : Block)
    (lc : Bool) : Wallet :=
  if lc then
    block.transactions.foldl (fun w tx => wallet_spec_tx_lc own block tx w) w
  else
    block.transactions.foldl (fun w tx => wallet_spec_tx_undo own block tx w) w

/-- Claim-literal effect of one transaction on a reorg-undo: the exact
swap of the longest-chain operations — a `WalletSlip` restored for each
input owned by the wallet (routed by slip type) and the slips matching
an owned output removed from the spendable or staked list chosen by
slip type, with the publickey as the only ownership test. -/
def wallet_spec_tx_undo_claim (block : Block) (tx : Transaction) (w : Wallet) :
    Wallet :=
  let addIn := tx.inputs.filter (owned_claim w.publickey)
  let delOut := tx.outputs.filter (owned_claim w.publickey)
  { w with
    slips :=
      ((w.slips ++
        (addIn.filter fun s => !staked_add_type s.slip_type).map
          (fun s => mk_wallet_slip block tx s true)).filter fun ws =>
        !(delOut.any fun s => !staked_delete_type s.slip_type && matches_slip ws s))
    staked_slips :=
      ((w.staked_slips ++
        (addIn.filter fun s => staked_add_type s.slip_type).map
          (fun s => mk_wallet_slip block tx s true)).filter fun ws =>
        !(delOut.any fun s => staked_delete_type s.slip_type && matches_slip ws s)) }

/-- Claim-literal chain reorganization: ownership tested on the
publickey alone, and the reorg-undo being the exact swap of the
longest-chain operations. -/
def wallet_reorg_claim (w : Wallet) (block : Block) (lc : Bool) : Wallet :=
  if lc then
    block.transactions.foldl (fun w tx => wallet_spec_tx_lc owned_claim block tx w) w
  else
    block.transactions.foldl (fun w tx => wallet_spec_tx_undo_claim block tx w) w

/-- The input slip built from a selected wallet slip (common to the code
and the claim's description of `generate_slips`). -/
def input_of_wallet_slip (pk : List Nat) (s : WalletSlip) : Slip :=
  { Slip.new with
    publickey := pk
    amount := s.amount
    uuid := s.uuid
    slip_ordinal := s.slip_ordinal }

/-- Spec-side greedy selection for `generate_slips`, phrased with the
remaining requested amount: unspent slips are selected in insertion
order while some amount is still needed, each selected slip is marked
spent, and the total selected amount is returned. -/
def spec_select (pk : List Nat) : List WalletSlip → Nat →
    List Slip × List WalletSlip × Nat
  | [], _ => ([], [], 0)
  | s :: rest, need =>
    if ¬s.spent ∧ 0 < need then
      let r := spec_select pk rest (need - s.amount)
      (input_of_wallet_slip pk s :: r.1, { s with spent := true } :: r.2.1,
        s.amount + r.2.2)
    else
      let r := spec_select pk rest need
      (r.1, s :: r.2.1, r.2.2)

/-- Claim-literal `generate_slips`: the selected inputs are returned
as-is, paired with the single change output for the overflow. -/
def generate_slips_claim (w : Wallet) (nolan_requested : Nat) :
    (List Slip × List Slip) × Wallet :=
  let r := spec_select w.publickey w.slips nolan_requested
  let change : Slip :=
    { Slip.new with publickey := w.publickey, amount := r.2.2 - nolan_requested }
  ((r.1, [change]), { w with slips := r.2.1 })

/-- Amended `generate_slips` specification: as the claim states it, but
when no slip at all was selected the inputs are the single zero-amount
placeholder instead of the empty list. -/
def generate_slips_spec (w : Wallet) (nolan_requested : Nat) :
    (List Slip × List Slip) × Wallet :=
  let r := spec_select w.publickey w.slips nolan_requested
  let change : Slip :=
    { Slip.new with publickey := w.publickey, amount := r.2.2 - nolan_requested }
  ((if r.1 = [] then [placeholder_slip w.publickey] else r.1, [change]),
    { w with slips := r.2.1 })

/-! ## Routing processor (`core/routing_event_processor.rs`)

Peer bookkeeping (`core/data/peer.rs`, `peer_collection.rs`) and the
message enum (`core/data/msg/message.rs`) are not among the sources at
hand; they are modelled from the spec below.  The routing handlers
themselves are embedded from `routing_event_processor.rs`, returning the
list of IO actions they issue. -/

/-- Embedding of `PeerConfig` (`core/data/configuration.rs`). -/
structure PeerConfig where
  host : String
  port : Nat
  protocol : String
  synctype : String
deriving DecidableEq, Repr

/-- Modelled from the spec: the peer-to-peer `Message` tagged union
(§6 wire table). -/
inductive Message where
  | HandshakeChallenge (publickey challenge : List Nat)
  | HandshakeResponse (publickey signature challenge : List Nat)
  | HandshakeCompletion (signature : List Nat)
  | ApplicationMessage (buffer : List Nat)
  | Block (bytes : List Nat)
  | Transaction (bytes : List Nat)
  | BlockchainRequest (latest_block_id : Nat) (latest_block_hash fork_id : List Nat)
  | BlockHeaderHash (hash : List Nat)
deriving DecidableEq, Repr

/-- IO actions the routing processor can issue through its
`InterfaceIO`/network adapter. -/
inductive IoAction where
  | sendMessage (peer_index : Nat) (message : Message)
  | connectToPeer (config : PeerConfig)
  | fetchBlockFromPeer (hash : List Nat) (peer_index : Nat) (url : String)
deriving DecidableEq, Repr

/-- Modelled from the spec: a `Peer` record — index, remote public key,
handshake state and the optional static-peer configuration that marks a
connection this node opened. -/
structure Peer where
  peer_index : Nat
  peer_public_key : List Nat
  static_peer_config : Option PeerConfig
  handshake_done : Bool
deriving DecidableEq, Repr

/-- Modelled from the spec: `Peer::new(peer_index)` — fresh peer with a
zeroed key, no static config and the handshake not yet done. -/
def Peer.new (peer_index : Nat) : Peer :=
  { peer_index := peer_index
    peer_public_key := List.replicate 33 0
    static_peer_config := none
    handshake_done := false }

/-- Modelled from the spec: `Peer::initiate_handshake` sends a
`HandshakeChallenge` carrying this node's public key and a fresh
challenge nonce (the nonce is threaded in as a parameter). -/
def Peer.initiate_handshake (peer : Peer) (wallet_publickey nonce : List Nat) :
    IoAction :=
  IoAction.sendMessage peer.peer_index
    (Message.HandshakeChallenge wallet_publickey nonce)

/-- Modelled from the spec: the peer table keyed by peer index
(`PeerCollection::index_to_peers`), as an association list whose insert
replaces any entry with the same index. -/
def peers_insert (peers : List (Nat × Peer)) (idx : Nat) (peer : Peer) :
    List (Nat × Peer) :=
  peers.filter (fun p => !decide (p.1 = idx)) ++ [(idx, peer)]

/-- Modelled from the spec: `PeerCollection::find_peer_by_index`. -/
def find_peer_by_index (peers : List (Nat × Peer)) (idx : Nat) : Option Peer :=
  (peers.find? (fun p => decide (p.1 = idx))).map (fun p => p.2)

/-- Embedding of `RoutingEventProcessor::handle_new_peer`: a new `Peer`
is built with the given static config; when there is no config the
connection is incoming and this node initiates the handshake; the peer
is then inserted into the table.  Returns the new table and the actions
issued. -/
def handle_new_peer (peers : List (Nat × Peer)) (peer_data : Option PeerConfig)
    (peer_index : Nat) (wallet_publickey nonce : List Nat) :
    List (Nat × Peer) × List IoAction :=
  let peer := { Peer.new peer_index with static_peer_config := peer_data }
  let actions :=
    if peer.static_peer_config.isNone then
      [peer.initiate_handshake wallet_publickey nonce]
    else []
  (peers_insert peers peer_index peer, actions)

/-- Embedding of the `NetworkEvent::PeerConnectionResult` arm of
`RoutingEventProcessor::process_network_event`: `handle_new_peer` runs
only when the connection result is a success. -/
def process_peer_connection_result (peers : List (Nat × Peer))
    (peer_details : Option PeerConfig) (result : Except Unit Nat)
    (wallet_publickey nonce : List Nat) : List (Nat × Peer) × List IoAction :=
  match result with
  | Except.ok peer_index =>
    handle_new_peer peers peer_details peer_index wallet_publickey nonce
  | Except.error _ => (peers, [])

/-- Embedding of `RoutingEventProcessor::handle_peer_disconnect`: a
known static peer is reconnected, a known non-static peer is only
logged, and an unknown peer index reaches
`todo!("Handle the unknown peer disconnect")`, which panics — modelled
as `Except.error`. -/
def handle_peer_disconnect (peers : List (Nat × Peer)) (peer_index : Nat) :
    Except String (List IoAction) :=
  match find_peer_by_index peers peer_index with
  | some peer =>
    match peer.static_peer_config with
    | some cfg => Except.ok [IoAction.connectToPeer cfg]
    | none => Except.ok []
  | none => Except.error "Handle the unknown peer disconnect"

/-- Modelled from the spec: the blockring state the blockchain-request
handler reads — the latest (tip) block id and the longest-chain block
hash stored at each block id (`[0; 32]` where there is none). -/
structure Blockring where
  latest_block_id : Nat
  longest_chain_block_hash_by_block_id : Nat → List Nat

/-- Modelled from the spec: the blockchain state the routing processor
reads — its blockring and `generate_last_shared_ancestor`, the fork-id
comparison returning a lower bound on the last shared block id. -/
structure Blockchain where
  blockring : Blockring
  generate_last_shared_ancestor : Nat → List Nat → Nat

/-- Embedding of the `BlockchainRequest` message body
(`core/data/msg/block_request.rs`): latest id, latest hash, fork id. -/
structure BlockchainRequest where
  latest_block_id : Nat
  latest_block_hash : List Nat
  fork_id : List Nat

/-- Embedding of
`RoutingEventProcessor::process_incoming_blockchain_request`: computes
the last shared ancestor, then for `i` in
`last_shared_ancestor..(latest_block_id + 1)` sends the longest-chain
block hash at `i` as a `BlockHeaderHash` message, skipping slots whose
stored hash is `[0; 32]`. -/
def process_incoming_blockchain_request (blockchain : Blockchain)
    (request : BlockchainRequest) (peer_index : Nat) : List IoAction :=
  let last_shared_ancestor :=
    blockchain.generate_last_shared_ancestor request.latest_block_id request.fork_id
  (List.range' last_shared_ancestor
      (blockchain.blockring.latest_block_id + 1 - last_shared_ancestor)).filterMap
    fun i =>
      let block_hash := blockchain.blockring.longest_chain_block_hash_by_block_id i
      if block_hash = List.replicate 32 0 then none
      else some (IoAction.sendMessage peer_index (Message.BlockHeaderHash block_hash))

/-- Claim-literal blockchain-request response: one `BlockHeaderHash` per
longest-chain block for the ids `last_shared_ancestor + 1` through the
tip id, ascending. -/
def blockchain_request_response_claim (blockchain : Blockchain)
    (request : BlockchainRequest) (peer_index : Nat) : List IoAction :=
  let last_shared_ancestor :=
    blockchain.generate_last_shared_ancestor request.latest_block_id request.fork_id
  ((List.range' (last_shared_ancestor + 1)
      (blockchain.blockring.latest_block_id - last_shared_ancestor)).filter
    fun i =>
      !decide (blockchain.blockring.longest_chain_block_hash_by_block_id i =
        List.replicate 32 0)).map
    fun i =>
      IoAction.sendMessage peer_index
        (Message.BlockHeaderHash
          (blockchain.blockring.longest_chain_block_hash_by_block_id i))

/-- Amended blockchain-request response: the streamed ids start at
`last_shared_ancestor` itself (not one past it). -/
def blockchain_request_response_spec (blockchain : Blockchain)
    (request : BlockchainRequest) (peer_index : Nat) : List IoAction :=
  let last_shared_ancestor :=
    blockchain.generate_last_shared_ancestor request.latest_block_id request.fork_id
  ((List.range' last_shared_ancestor
      (blockchain.blockring.latest_block_id + 1 - last_shared_ancestor)).filter
    fun i =>
      !decide (blockchain.blockring.longest_chain_block_hash_by_block_id i =
        List.replicate 32 0)).map
    fun i =>
      IoAction.sendMessage peer_index
        (Message.BlockHeaderHash
          (blockchain.blockring.longest_chain_block_hash_by_block_id i))

/-! ## Miner controller (`core/miner_controller.rs`) -/

/-- Embedding of the `MINER_INTERVAL` constant (microseconds). -/
def MINER_INTERVAL : Nat := 100000

/-- Modelled from the spec: the miner state (`core/data/miner.rs`) —
proof-of-work target and difficulty. -/
structure Miner where
  target : List Nat
  difficulty : Nat
deriving DecidableEq, Repr

/-- Embedding of the `MinerController` state: the shared miner, the
accumulated timer (microseconds) and the armed flag
`new_miner_event_received`. -/
structure MinerController where
  miner : Miner
  miner_timer : Nat
  new_miner_event_received : Bool
deriving DecidableEq, Repr

/-- Embedding of `MinerController::process_timer_event`: while armed the
timer accumulates the tick duration; once it exceeds `MINER_INTERVAL`
the timer is reset, the flag cleared and one mining attempt
(`miner.mine(...)`) performed — reported as the returned flag. -/
def MinerController.process_timer_event (c : MinerController)
    (duration_micros : Nat) : MinerController × Bool :=
  if c.new_miner_event_received then
    let c := { c with miner_timer := c.miner_timer + duration_micros }
    if c.miner_timer > MINER_INTERVAL then
      ({ c with miner_timer := 0, new_miner_event_received := false }, true)
    else (c, false)
  else (c, false)

/-- Embedding of the `MinerEvent::LongestChainBlockAdded` arm of
`MinerController::process_event`: retargets the miner and arms the
timer. -/
def MinerController.on_longest_chain_block_added (c : MinerController)
    (hash : List Nat) (difficulty : Nat) : MinerController :=
  { c with
    miner := { target := hash, difficulty := difficulty }
    new_miner_event_received := true }

/-! ## Concrete sample data and observation predicates -/

/-- Whether an action list contains a `HandshakeChallenge` send. -/
def sends_handshake_challenge (actions : List IoAction) : Bool :=
  actions.any fun a =>
    match a with
    | IoAction.sendMessage _ (Message.HandshakeChallenge _ _) => true
    | _ => false

/-- A sample 33-byte public key. -/
def pk1 : List Nat := List.replicate 33 1

/-- A sample wallet owning `pk1` and holding no slips. -/
def w0 : Wallet :=
  { publickey := pk1
    privatekey := List.replicate 32 1
    slips := []
    staked_slips := []
    filename := "default"
    filepass := "password" }

/-- A sample block with one transaction carrying a single zero-amount
output addressed to `pk1`. -/
def b0 : Block :=
  { id := 1
    hash := List.replicate 32 3
    transactions :=
      [{ inputs := []
         outputs := [{ Slip.new with publickey := pk1 }]
         hash_for_signature := List.replicate 32 4 }] }

/-- A sample wallet owning one unspent slip of amount 3. -/
def w2 : Wallet := { w0 with slips := [{ WalletSlip.new with amount := 3 }] }

/-- A sample wallet whose only slip is already spent. -/
def w3 : Wallet :=
  { w0 with slips := [{ WalletSlip.new with amount := 7, spent := true }] }

/-- A sample wallet owning one staked slip (uuid `5…5`, ordinal 0). -/
def w4 : Wallet :=
  { w0 with
    staked_slips := [{ WalletSlip.new with uuid := List.replicate 32 5, amount := 5 }] }

/-- A sample block with one transaction carrying a single positive
`StakerDeposit` output addressed to `pk1` that matches the staked slip
of `w4` on (uuid, ordinal). -/
def b1 : Block :=
  { id := 2
    hash := List.replicate 32 6
    transactions :=
      [{ inputs := []
         outputs :=
           [{ publickey := pk1
              amount := 5
              uuid := List.replicate 32 5
              slip_ordinal := 0
              slip_type := SlipType.StakerDeposit }]
         hash_for_signature := List.replicate 32 7 }] }

/-- A sample static-peer configuration. -/
def cfg0 : PeerConfig :=
  { host := "localhost", port := 12101, protocol := "http", synctype := "full" }

/-- A sample blockchain whose longest chain holds blocks 1 and 2 and
whose last-shared-ancestor computation returns 1. -/
def bc0 : Blockchain :=
  { blockring :=
      { latest_block_id := 2
        longest_chain_block_hash_by_block_id := fun i =>
          if i = 1 then List.replicate 32 1
          else if i = 2 then List.replicate 32 2
          else List.replicate 32 0 }
    generate_last_shared_ancestor := fun _ _ => 1 }

/-- A sample blockchain request. -/
def req0 : BlockchainRequest :=
  { latest_block_id := 2
    latest_block_hash := List.replicate 32 9
    fork_id := List.replicate 32 7 }

/-! ## Supporting lemmas: wallet reorganization -/

lemma delete_slip_publickey (w : Wallet) (s : Slip) :
    (w.delete_slip s).publickey = w.publickey := rfl

lemma owned_positive_false (pk : List Nat) (s : Slip)
    (h : ¬(0 < s.amount ∧ s.publickey = pk)) : owned_positive pk s = false := by
  simp only [owned_positive, Bool.and_eq_false_imp, decide_eq_true_eq,
    decide_eq_false_iff_not]
  intro h1
  exact fun h2 => h ⟨h1, h2⟩

lemma owned_positive_true (pk : List Nat) (s : Slip)
    (h : 0 < s.amount ∧ s.publickey = pk) : owned_positive pk s = true := by
  simp [owned_positive, h.1, h.2]

lemma wallet_reorg_delete_inputs_eq (inputs : List Slip) (w : Wallet) :
    wallet_reorg_delete_inputs w inputs =
      { w with
        slips := w.slips.filter fun ws =>
          !((inputs.filter (owned_positive w.publickey)).any fun s =>
            !staked_delete_type s.slip_type && matches_slip ws s)
        staked_slips := w.staked_slips.filter fun ws =>
          !((inputs.filter (owned_positive w.publickey)).any fun s =>
            staked_delete_type s.slip_type && matches_slip ws s) } := by
  induction inputs generalizing w with
  | nil => simp [wallet_reorg_delete_inputs]
  | cons s rest ih =>
    unfold wallet_reorg_delete_inputs
    by_cases hg : 0 < s.amount ∧ s.publickey = w.publickey
    · rw [if_pos hg]
      by_cases hst : staked_delete_type s.slip_type = true
      · rw [if_pos hst, ih]
        simp only [Wallet.delete_staked_slip, List.filter_filter, List.filter_cons,
          owned_positive_true _ _ hg, if_pos, List.any_cons, hst]
        congr 1
        all_goals
          apply List.filter_congr
          intro ws _
          cases h1 : matches_slip ws s <;> simp [h1, Bool.and_comm]
      · have hst' : staked_delete_type s.slip_type = false := by
          revert hst
          cases staked_delete_type s.slip_type <;> simp
        rw [if_neg hst, ih]
        simp only [Wallet.delete_slip, List.filter_filter, List.filter_cons,
          owned_positive_true _ _ hg, if_pos, List.any_cons, hst']
        congr 1
        all_goals
          apply List.filter_congr
          intro ws _
          cases h1 : matches_slip ws s <;> simp [h1, Bool.and_comm]
    · rw [if_neg hg, ih]
      simp [List.filter_cons, owned_positive_false _ _ hg]

lemma wallet_reorg_add_outputs_eq (block : Block) (tx : Transaction)
    (outputs : List Slip) (w : Wallet) :
    wallet_reorg_add_outputs block tx w outputs =
      { w with
        slips := w.slips ++
          ((outputs.filter (owned_positive w.publickey)).filter
            fun s => !staked_add_type s.slip_type).map
            (fun s => mk_wallet_slip block tx s true)
        staked_slips := w.staked_slips ++
          ((outputs.filter (owned_positive w.publickey)).filter
            fun s => staked_add_type s.slip_type).map
            (fun s => mk_wallet_slip block tx s true) } := by
  induction outputs generalizing w with
  | nil => simp [wallet_reorg_add_outputs]
  | cons s rest ih =>
    unfold wallet_reorg_add_outputs
    by_cases hg : 0 < s.amount ∧ s.publickey = w.publickey
    · rw [if_pos hg, ih]
      by_cases hst : staked_add_type s.slip_type = true
      · simp [Wallet.add_slip, hst, owned_positive_true _ _ hg, List.filter_cons]
      · have hst' : staked_add_type s.slip_type = false := by
          revert hst
          cases staked_add_type s.slip_type <;> simp
        simp [Wallet.add_slip, hst', owned_positive_true _ _ hg, List.filter_cons]
    · rw [if_neg hg, ih]
      simp [List.filter_cons, owned_positive_false _ _ hg]

lemma wallet_reorg_add_inputs_eq (block : Block) (tx : Transaction)
    (inputs : List Slip) (w : Wallet) :
    wallet_reorg_add_inputs block tx w inputs =
      { w with
        slips := w.slips ++
          ((inputs.filter (owned_positive w.publickey)).filter
            fun s => !staked_add_type s.slip_type).map
            (fun s => mk_wallet_slip block tx s true)
        staked_slips := w.staked_slips ++
          ((inputs.filter (owned_positive w.publickey)).filter
            fun s => staked_add_type s.slip_type).map
            (fun s => mk_wallet_slip block tx s true) } := by
  induction inputs generalizing w with
  | nil => simp [wallet_reorg_add_inputs]
  | cons s rest ih =>
    unfold wallet_reorg_add_inputs
    by_cases hg : 0 < s.amount ∧ s.publickey = w.publickey
    · rw [if_pos hg, ih]
      by_cases hst : staked_add_type s.slip_type = true
      · simp [Wallet.add_slip, hst, owned_positive_true _ _ hg, List.filter_cons]
      · have hst' : staked_add_type s.slip_type = false := by
          revert hst
          cases staked_add_type s.slip_type <;> simp
        simp [Wallet.add_slip, hst', owned_positive_true _ _ hg, List.filter_cons]
    · rw [if_neg hg, ih]
      simp [List.filter_cons, owned_positive_false _ _ hg]

lemma wallet_reorg_delete_outputs_eq (outputs : List Slip) (w : Wallet) :
    wallet_reorg_delete_outputs w outputs =
      { w with
        slips := w.slips.filter fun ws =>
          !((outputs.filter (owned_positive w.publickey)).any fun s =>
            matches_slip ws s) } := by
  induction outputs generalizing w with
  | nil => simp [wallet_reorg_delete_outputs]
  | cons s rest ih =>
    unfold wallet_reorg_delete_outputs
    by_cases hg : 0 < s.amount ∧ s.publickey = w.publickey
    · rw [if_pos hg, ih]
      simp only [Wallet.delete_slip, List.filter_filter, List.filter_cons,
        owned_positive_true _ _ hg, if_pos, List.any_cons]
      congr 1
      all_goals
        apply List.filter_congr
        intro ws _
        cases h1 : matches_slip ws s <;> simp [h1, Bool.and_comm]
    · rw [if_neg hg, ih]
      simp [List.filter_cons, owned_positive_false _ _ hg]

lemma wallet_reorg_tx_lc_eq (block : Block) (tx : Transaction) (w : Wallet) :
    wallet_reorg_add_outputs block tx (wallet_reorg_delete_inputs w tx.inputs)
        tx.outputs =
      wallet_spec_tx_lc owned_positive block tx w := by
  rw [wallet_reorg_delete_inputs_eq, wallet_reorg_add_outputs_eq]
  simp [wallet_spec_tx_lc]

lemma wallet_reorg_tx_undo_eq (block : Block) (tx : Transaction) (w : Wallet) :
    wallet_reorg_delete_outputs (wallet_reorg_add_inputs block tx w tx.inputs)
        tx.outputs =
      wallet_spec_tx_undo owned_positive block tx w := by
  rw [wallet_reorg_add_inputs_eq, wallet_reorg_delete_outputs_eq]
  simp [wallet_spec_tx_undo]

lemma wallet_reorg_txs_lc_eq (block : Block) (txs : List Transaction) (w : Wallet) :
    wallet_reorg_txs block true w txs =
      txs.foldl (fun w tx => wallet_spec_tx_lc owned_positive block tx w) w := by
  induction txs generalizing w with
  | nil => simp [wallet_reorg_txs]
  | cons tx rest ih =>
    unfold wallet_reorg_txs
    simp only [if_pos, List.foldl_cons]
    rw [wallet_reorg_tx_lc_eq, ih]

lemma wallet_reorg_txs_undo_eq (block : Block) (txs : List Transaction) (w : Wallet) :
    wallet_reorg_txs block false w txs =
      txs.foldl (fun w tx => wallet_spec_tx_undo owned_positive block tx w) w := by
  induction txs generalizing w with
  | nil => simp [wallet_reorg_txs]
  | cons tx rest ih =>
    unfold wallet_reorg_txs
    simp only [if_neg, List.foldl_cons, Bool.false_eq_true, not_false_eq_true]
    rw [wallet_reorg_tx_undo_eq, ih]

/-! ## Supporting lemmas: wallet slip selection -/

lemma generate_slips_loop_eq (pk : List Nat) (req : Nat) (slips : List WalletSlip)
    (acc : Nat) :
    generate_slips_loop pk req slips acc =
      ((spec_select pk slips (req - acc)).2.1,
        (spec_select pk slips (req - acc)).1,
        acc + (spec_select pk slips (req - acc)).2.2) := by
  induction slips generalizing acc with
  | nil => simp [generate_slips_loop, spec_select]
  | cons s rest ih =>
    unfold generate_slips_loop spec_select
    by_cases hs : s.spent
    · rw [if_neg (by simp [hs]), if_neg (by simp [hs])]
      simp only [ih acc]
    · by_cases h2 : acc < req
      · rw [if_pos ⟨hs, h2⟩, if_pos ⟨hs, by omega⟩]
        have hsub : req - (acc + s.amount) = req - acc - s.amount := by omega
        simp only [ih (acc + s.amount), hsub, input_of_wallet_slip]
        refine congrArg₂ _ rfl (congrArg₂ _ rfl ?_)
        omega
      · rw [if_neg (by intro hc; exact h2 hc.2),
          if_neg (by intro hc; omega)]
        simp only [ih acc]

lemma spec_select_all (pk : List Nat) (slips : List WalletSlip) (need : Nat)
    (h : ((slips.filter fun s => !s.spent).map (fun s => s.amount)).sum < need) :
    (spec_select pk slips need).1 =
      (slips.filter fun s => !s.spent).map (input_of_wallet_slip pk) := by
  induction slips generalizing need with
  | nil => simp [spec_select]
  | cons s rest ih =>
    unfold spec_select
    by_cases hs : s.spent
    · rw [if_neg (by simp [hs])]
      simp only [List.filter_cons, hs] at h ⊢
      simpa using ih need (by simpa using h)
    · have hpos : 0 < need := by
        have := Nat.zero_le ((rest.filter fun s => !s.spent).map
          (fun s => s.amount)).sum
        omega
      rw [if_pos ⟨hs, hpos⟩]
      simp only [List.filter_cons, hs] at h ⊢
      simp only [Bool.not_false, if_pos, List.map_cons, List.sum_cons] at h ⊢
      rw [ih (need - s.amount) (by omega)]

lemma generate_slips_loop_all_spent (pk : List Nat) (req : Nat)
    (slips : List WalletSlip) (acc : Nat) (h : ∀ s ∈ slips, s.spent = true) :
    generate_slips_loop pk req slips acc = (slips, [], acc) := by
  induction slips generalizing acc with
  | nil => simp [generate_slips_loop]
  | cons s rest ih =>
    unfold generate_slips_loop
    rw [if_neg (by simp [h s (List.mem_cons_self s rest)])]
    simp [ih acc fun t ht => h t (List.mem_cons_of_mem _ ht)]

lemma generate_slips_eq_spec (w : Wallet) (n : Nat) :
    w.generate_slips n = generate_slips_spec w n := by
  unfold Wallet.generate_slips generate_slips_spec
  rw [generate_slips_loop_eq]
  simp only [Nat.sub_zero, Nat.zero_add, List.isEmpty_iff]
  have hout : (if 0 + (spec_select w.publickey w.slips n).2.2 > n then
      0 + (spec_select w.publickey w.slips n).2.2 - n else 0) =
      (spec_select w.publickey w.slips n).2.2 - n := by
    split <;> omega
  simp only [Nat.zero_add] at hout
  rw [hout]
  simp

/-! ## Supporting lemmas: routing -/

lemma filterMap_ite {α β : Type} (p : α → Prop) [DecidablePred p] (f : α → β)
    (l : List α) :
    (l.filterMap fun a => if p a then none else some (f a)) =
      (l.filter fun a => !decide (p a)).map f := by
  induction l with
  | nil => simp
  | cons x xs ih => by_cases hx : p x <;> simp [hx, ih]

lemma find_peer_by_index_insert (peers : List (Nat × Peer)) (idx : Nat) (p : Peer) :
    find_peer_by_index (peers_insert peers idx p) idx = some p := by
  unfold find_peer_by_index peers_insert
  rw [List.find?_append]
  have h1 : (peers.filter fun q => !decide (q.1 = idx)).find?
      (fun q => decide (q.1 = idx)) = none := by
    rw [List.find?_eq_none]
    intro q hq
    have := List.of_mem_filter hq
    simpa using this
  rw [h1]
  simp [List.find?]

lemma uintBE_lt (s : List Nat) (hb : ∀ b ∈ s, b < 256) :
    uintBE s < 256 ^ s.length := by
  have h1 := uintBE_foldl_lt s 0 hb
  simpa [uintBE] using h1

/-! ## Claim theorems -/

/-- C4: `GoldenTicket::is_valid_solution` is monotone in the difficulty:
for every solution `s` and difficulties `d' < d`, a solution valid at
`d` is valid at `d'`. -/
theorem is_valid_solution_monotone_difficulty (s : List Nat) (d d' : Nat)
    (hd : d' < d) (h : is_valid_solution s d = true) :
    is_valid_solution s d' = true := by
  simp only [is_valid_solution, decide_eq_true_eq] at h ⊢
  exact h.trans (targetValue_antitone (Nat.le_of_lt hd))

/-- C4 witness: the all-zero solution is valid at difficulty 1, hence by
monotonicity at difficulty 0. -/
theorem is_valid_solution_monotone_witness :
    is_valid_solution (List.replicate 32 0) 0 = true :=
  is_valid_solution_monotone_difficulty (List.replicate 32 0) 1 0
    (by decide) (by decide)

/-- C9: at difficulty 0 the target is the all-F 256-bit value, so every
32-byte solution is valid. -/
theorem is_valid_solution_difficulty_zero (s : List Nat) (h32 : s.length = 32)
    (hb : ∀ b ∈ s, b < 256) : is_valid_solution s 0 = true := by
  simp only [is_valid_solution, decide_eq_true_eq, targetValue_zero]
  have h1 := uintBE_lt s hb
  rw [h32] at h1
  have h2 : (256 : Nat) ^ 32 = 2 ^ 256 := by norm_num
  rw [h2] at h1
  exact Nat.le_pred_of_lt h1

/-- C9 witness: the largest 32-byte solution is valid at difficulty 0. -/
theorem is_valid_solution_difficulty_zero_witness :
    is_valid_solution (List.replicate 32 255) 0 = true :=
  is_valid_solution_difficulty_zero (List.replicate 32 255)
    (by decide) (by decide)

/-- C6: `GoldenTicket::serialize_for_transaction` produces exactly 97
bytes laid out `target(32) ‖ random(32) ‖ publickey(33)`, and
`deserialize_for_transaction` recovers the golden ticket. -/
theorem golden_ticket_serialize_roundtrip (g : GoldenTicket)
    (ht : g.target.length = 32) (hr : g.random.length = 32)
    (hp : g.publickey.length = 33) :
    (g.serialize_for_transaction).length = 97 ∧
      GoldenTicket.deserialize_for_transaction g.serialize_for_transaction = g := by
  obtain ⟨t, r, p⟩ := g
  simp only [GoldenTicket.serialize_for_transaction] at *
  refine ⟨by simp [ht, hr, hp], ?_⟩
  unfold GoldenTicket.deserialize_for_transaction
  simp only [GoldenTicket.mk.injEq]
  refine ⟨?_, ?_, ?_⟩
  · rw [List.append_assoc, ← ht, List.take_left]
  · rw [List.append_assoc, List.drop_left' ht, ← hr, List.take_left]
  · rw [List.drop_left' (by simp [ht, hr]), ← hp, List.take_length]

/-- C6 witness: round trip at a concrete golden ticket. -/
theorem golden_ticket_serialize_roundtrip_witness :
    (GoldenTicket.serialize_for_transaction
        ⟨List.replicate 32 1, List.replicate 32 2, List.replicate 33 3⟩).length = 97 ∧
      GoldenTicket.deserialize_for_transaction
          (GoldenTicket.serialize_for_transaction
            ⟨List.replicate 32 1, List.replicate 32 2, List.replicate 33 3⟩) =
        ⟨List.replicate 32 1, List.replicate 32 2, List.replicate 33 3⟩ :=
  golden_ticket_serialize_roundtrip _ (by decide) (by decide) (by decide)

/-- C8: the miner's timer handler accumulates only while armed, fires
exactly when the accumulated timer exceeds `MINER_INTERVAL`, and then
resets the timer, clears the armed flag and performs one mining
attempt. -/
theorem miner_process_timer_event_spec (c : MinerController) (dt : Nat) :
    ((c.process_timer_event dt).2 = true ↔
      c.new_miner_event_received = true ∧ MINER_INTERVAL < c.miner_timer + dt) ∧
    ((c.process_timer_event dt).2 = true →
      (c.process_timer_event dt).1.miner_timer = 0 ∧
        (c.process_timer_event dt).1.new_miner_event_received = false) ∧
    (c.new_miner_event_received = false →
      (c.process_timer_event dt).1 = c ∧ (c.process_timer_event dt).2 = false) ∧
    (c.new_miner_event_received = true → c.miner_timer + dt ≤ MINER_INTERVAL →
      (c.process_timer_event dt).1 = { c with miner_timer := c.miner_timer + dt } ∧
        (c.process_timer_event dt).2 = false) := by
  unfold MinerController.process_timer_event
  by_cases ha : c.new_miner_event_received = true
  · by_cases hcmp : c.miner_timer + dt > MINER_INTERVAL
    · simp [ha, hcmp]
    · simp [ha, hcmp]
  · have ha' : c.new_miner_event_received = false := by
      revert ha
      cases c.new_miner_event_received <;> simp
    simp [ha']

/-- C8 witness: an armed controller at timer 0 that receives a 200000 µs
tick fires and resets. -/
theorem miner_process_timer_event_witness :
    (MinerController.process_timer_event
        ⟨⟨List.replicate 32 0, 0⟩, 0, true⟩ 200000).1.miner_timer = 0 ∧
      (MinerController.process_timer_event
          ⟨⟨List.replicate 32 0, 0⟩, 0, true⟩ 200000).1.new_miner_event_received =
        false :=
  (miner_process_timer_event_spec ⟨⟨List.replicate 32 0, 0⟩, 0, true⟩ 200000).2.1
    (by decide)

/-- C3 (code bug): a `PeerDisconnected` event whose peer index is
unknown reaches `todo!("Handle the unknown peer disconnect")` and
panics, contradicting the spec's "never panic on unknown indices — log
and drop". -/
theorem handle_peer_disconnect_unknown_peer_panics :
    handle_peer_disconnect [] 5 =
      Except.error "Handle the unknown peer disconnect" := rfl

/-- C1 counterexample: with a static-peer config given, `handle_new_peer`
does not send a `HandshakeChallenge`, refuting "initiates the handshake
iff a static-peer config was given". -/
theorem handle_new_peer_challenge_counterexample :
    ¬(sends_handshake_challenge
        (handle_new_peer [] (some cfg0) 7 pk1 (List.replicate 32 2)).2 = true ↔
      (some cfg0).isSome = true) := by decide

/-- C1 (amended): on a successful `PeerConnectionResult` the routing
processor inserts a new `Peer` carrying the given config, and it sends a
`HandshakeChallenge` iff no static-peer config was given (the incoming
direction), waiting for the remote's challenge otherwise. -/
theorem routing_new_peer_spec (peers : List (Nat × Peer))
    (peer_details : Option PeerConfig) (result : Except Unit Nat) (idx : Nat)
    (pk nonce : List Nat) (h : result = Except.ok idx) :
    find_peer_by_index
        (process_peer_connection_result peers peer_details result pk nonce).1 idx =
      some { Peer.new idx with static_peer_config := peer_details } ∧
    sends_handshake_challenge
        (process_peer_connection_result peers peer_details result pk nonce).2 =
      peer_details.isNone := by
  subst h
  unfold process_peer_connection_result handle_new_peer
  refine ⟨find_peer_by_index_insert _ _ _, ?_⟩
  cases peer_details <;>
    simp [sends_handshake_challenge, Peer.initiate_handshake]

/-- C1 witness: a successful connection without config inserts the peer
and initiates the handshake. -/
theorem routing_new_peer_spec_witness :
    find_peer_by_index
        (process_peer_connection_result [] none (Except.ok 3) pk1
          (List.replicate 32 2)).1 3 =
      some { Peer.new 3 with static_peer_config := none } ∧
    sends_handshake_challenge
        (process_peer_connection_result [] none (Except.ok 3) pk1
          (List.replicate 32 2)).2 =
      (none : Option PeerConfig).isNone :=
  routing_new_peer_spec [] none (Except.ok 3) 3 pk1 (List.replicate 32 2) rfl

/-- C2 counterexample: with last shared ancestor 1 and tip 2, the code
streams the headers of blocks 1 and 2, not only of block 2 as the claim
("from `last_shared_ancestor + 1`") states. -/
theorem blockchain_request_start_counterexample :
    process_incoming_blockchain_request bc0 req0 4 ≠
      blockchain_request_response_claim bc0 req0 4 := by decide

/-- C2 (amended): the blockchain-request handler streams one
`BlockHeaderHash` per longest-chain block for every id from
`last_shared_ancestor` (inclusive) through the tip id, ascending,
skipping ids whose stored hash is zero. -/
theorem blockchain_request_stream_spec (bc : Blockchain)
    (req : BlockchainRequest) (idx : Nat) :
    process_incoming_blockchain_request bc req idx =
      blockchain_request_response_spec bc req idx := by
  unfold process_incoming_blockchain_request blockchain_request_response_spec
  exact filterMap_ite _ _ _

/-- C5 counterexample: the claim fails on the code at two concrete
inputs — a zero-amount output addressed to the wallet is not appended
on a longest-chain add (the code guards on a positive amount, the claim
tests the publickey only), and on a reorg-undo a staked slip matching a
`StakerDeposit` output is not removed (the code deletes outputs from
the spendable list only, the claimed swap would delete it from the
staked list). -/
theorem on_chain_reorg_claim_counterexample :
    Wallet.on_chain_reorganization w0 b0 true ≠ wallet_reorg_claim w0 b0 true ∧
      Wallet.on_chain_reorganization w4 b1 false ≠ wallet_reorg_claim w4 b1 false := by
  decide

/-- C5 (amended): on a longest-chain add the wallet removes, per
transaction, the slips matching each positive-amount input it owns
(spendable or staked list chosen by slip type) and appends a
`WalletSlip` for each positive-amount output it owns; on a reorg-undo,
slips are restored for the positive-amount inputs it owns, and the
slips matching its positive-amount outputs are removed from the
spendable list only — a staked slip created by a
`StakerDeposit`/`StakerOutput` output is not removed on undo. -/
theorem on_chain_reorg_spec_correct (w : Wallet) (block : Block) (lc : Bool) :
    w.on_chain_reorganization block lc =
      wallet_reorg_spec owned_positive w block lc := by
  unfold Wallet.on_chain_reorganization wallet_reorg_spec
  cases lc
  · simpa using wallet_reorg_txs_undo_eq block block.transactions w
  · simpa using wallet_reorg_txs_lc_eq block block.transactions w

/-- C7 counterexample: on a wallet with no slips and request 5, the code
returns the zero-amount placeholder input, not the (empty) list of
selected inputs the claim describes. -/
theorem generate_slips_empty_selection_counterexample :
    Wallet.generate_slips w0 5 ≠ generate_slips_claim w0 5 := by decide

/-- C7 (amended): `generate_slips` greedily selects unspent slips in
insertion order until their sum meets the request, marks them spent and
pairs them with the single change output for the overflow — except that
an empty selection is replaced by the zero-amount placeholder input;
when the unspent slips cannot cover the request they are all selected
and returned. -/
theorem generate_slips_spec_correct (w : Wallet) (n : Nat) :
    w.generate_slips n = generate_slips_spec w n ∧
    ((w.slips.filter fun s => !s.spent) ≠ [] →
      ((w.slips.filter fun s => !s.spent).map (fun s => s.amount)).sum < n →
      (w.generate_slips n).1.1 =
        (w.slips.filter fun s => !s.spent).map (input_of_wallet_slip w.publickey)) := by
  refine ⟨generate_slips_eq_spec w n, fun hne hsum => ?_⟩
  rw [generate_slips_eq_spec w n]
  have hall := spec_select_all w.publickey w.slips n hsum
  simp only [generate_slips_spec, hall]
  rw [if_neg (by simp [hne])]

/-- C7 witness: a wallet holding a single unspent slip of amount 3 asked
for 10 returns that slip as the only input. -/
theorem generate_slips_spec_witness :
    (Wallet.generate_slips w2 10).1.1 =
      (w2.slips.filter fun s => !s.spent).map (input_of_wallet_slip w2.publickey) :=
  (generate_slips_spec_correct w2 10).2 (by decide) (by decide)

/-- C10: `generate_slips` never returns an empty input or output list —
there is at least one input and exactly one output, and with no unspent
slips it returns the zero-amount placeholder input (all-zero uuid) and a
zero-amount change output, both bearing the wallet's publickey. -/
theorem generate_slips_never_empty (w : Wallet) (n : Nat) :
    (w.generate_slips n).1.1 ≠ [] ∧ (w.generate_slips n).1.2.length = 1 ∧
    ((∀ s ∈ w.slips, s.spent = true) →
      (w.generate_slips n).1.1 = [placeholder_slip w.publickey] ∧
      (w.generate_slips n).1.2 =
        [{ Slip.new with publickey := w.publickey, amount := 0 }]) := by
  refine ⟨?_, ?_, fun hall => ?_⟩
  · unfold Wallet.generate_slips
    cases h : (generate_slips_loop w.publickey n w.slips 0).2.1 <;> simp [h]
  · unfold Wallet.generate_slips
    simp
  · unfold Wallet.generate_slips
    rw [generate_slips_loop_all_spent _ _ _ _ hall]
    simp [placeholder_slip]

/-- C10 witness: a wallet whose only slip is spent returns the
placeholder input and the zero change output. -/
theorem generate_slips_never_empty_witness :
    (Wallet.generate_slips w3 3).1.1 = [placeholder_slip w3.publickey] ∧
      (Wallet.generate_slips w3 3).1.2 =
        [{ Slip.new with publickey := w3.publickey, amount := 0 }] :=
  (generate_slips_never_empty w3 3).2.2 (by decide)

end Saito
